import Mathlib

/-!
Verification of the vipacess payment and catalog flow.

This file shallowly embeds the backend routes of the repository:

* `src/backend/src/routes/payments.ts` — payment initiation, the PushinPay
  and SyncPay webhook receivers, the order-status route, and the
  `encrypttxnOrder` / `decrypttxnOrder` helpers for "ghost" (diverted)
  orders;
* `src/backend/src/services/orderExpiration.ts` — the pending-order
  expiration sweep;
* the product catalog routes (listing and single product) with their
  strict region filtering.

External libraries (node `crypto` AES-256-CBC, `JSON.stringify`/`parse`,
the Prisma client, the payment-gateway HTTP clients) are modelled as
abstract parameters with their documented contracts; everything the
repository's own code does (branching, guards, state updates, the
`txn_` token format with its hex and `-` framing) is embedded concretely.
-/

namespace Vipacess

/-! ## Bytes and hex encoding

`Buffer.toString('hex')` / `Buffer.from(s, 'hex')` as used by
`encrypttxnOrder` / `decrypttxnOrder`. -/

abbrev Byte := Fin 256

abbrev Bytes := List Byte

/-- One hex digit (`0..15`) to its lowercase character, as produced by
`Buffer.toString('hex')`. -/
def hexDigitChar (n : Nat) : Char :=
  if n < 10 then Char.ofNat (48 + n) else Char.ofNat (87 + n)

/-- The numeric value of a hex character, if it is one. -/
def hexDigitVal (c : Char) : Option Nat :=
  if '0' ≤ c ∧ c ≤ '9' then some (c.toNat - 48)
  else if 'a' ≤ c ∧ c ≤ 'f' then some (c.toNat - 87)
  else if 'A' ≤ c ∧ c ≤ 'F' then some (c.toNat - 55)
  else none

/-- `Buffer.toString('hex')`: two lowercase hex digits per byte. -/
def hexEncodeBytes : Bytes → List Char
  | [] => []
  | b :: bs => hexDigitChar (b.val / 16) :: hexDigitChar (b.val % 16) :: hexEncodeBytes bs

/-- `Buffer.from(·, 'hex')` on well-formed input; `none` on malformed input. -/
def hexDecodeChars : List Char → Option Bytes
  | [] => some []
  | [_] => none
  | c1 :: c2 :: cs =>
    match hexDigitVal c1, hexDigitVal c2, hexDecodeChars cs with
    | some h, some l, some rest =>
      if hlt : h * 16 + l < 256 then some (⟨h * 16 + l, hlt⟩ :: rest) else none
    | _, _, _ => none

theorem hexDigitVal_hexDigitChar {n : Nat} (h : n < 16) :
    hexDigitVal (hexDigitChar n) = some n := by
  interval_cases n <;> decide

theorem hexDigitChar_ne_dash {n : Nat} (h : n < 16) : hexDigitChar n ≠ '-' := by
  interval_cases n <;> decide

theorem hexDecodeChars_hexEncodeBytes (bs : Bytes) :
    hexDecodeChars (hexEncodeBytes bs) = some bs := by
  induction bs with
  | nil => rfl
  | cons b rest ih =>
    have hdiv : b.val / 16 < 16 := by omega
    have hmod : b.val % 16 < 16 := by omega
    simp only [hexEncodeBytes, hexDecodeChars, hexDigitVal_hexDigitChar hdiv,
      hexDigitVal_hexDigitChar hmod, ih]
    have hb : b.val / 16 * 16 + b.val % 16 = b.val := by omega
    have hlt : b.val / 16 * 16 + b.val % 16 < 256 := by omega
    simp only [dif_pos hlt]
    have hfin : (⟨b.val / 16 * 16 + b.val % 16, hlt⟩ : Byte) = b := Fin.ext hb
    rw [hfin]

theorem hexEncodeBytes_no_dash (bs : Bytes) : ∀ c ∈ hexEncodeBytes bs, c ≠ '-' := by
  induction bs with
  | nil => intro c hc; simp [hexEncodeBytes] at hc
  | cons b rest ih =>
    intro c hc
    have hdiv : b.val / 16 < 16 := by omega
    have hmod : b.val % 16 < 16 := by omega
    simp only [hexEncodeBytes, List.mem_cons] at hc
    rcases hc with h | h | h
    · exact h ▸ hexDigitChar_ne_dash hdiv
    · exact h ▸ hexDigitChar_ne_dash hmod
    · exact ih c h

/-! ## JavaScript `split('-')` / `join('-')` -/

/-- `str.split('-')` on the character list of a string. -/
def splitOnDash : List Char → List (List Char)
  | [] => [[]]
  | c :: cs =>
    let rest := splitOnDash cs
    if c = '-' then [] :: rest
    else
      match rest with
      | [] => [[c]]
      | h :: t => (c :: h) :: t

/-- `parts.join('-')`. -/
def joinDash : List (List Char) → List Char
  | [] => []
  | [p] => p
  | p :: ps => p ++ '-' :: joinDash ps

theorem splitOnDash_no_dash {l : List Char} (h : ∀ c ∈ l, c ≠ '-') :
    splitOnDash l = [l] := by
  induction l with
  | nil => rfl
  | cons c cs ih =>
    have hc : c ≠ '-' := h c (List.mem_cons_self c cs)
    have hrest : splitOnDash cs = [cs] := ih fun x hx => h x (List.mem_cons_of_mem c hx)
    simp [splitOnDash, hrest, hc]

theorem splitOnDash_append {a b : List Char} (ha : ∀ c ∈ a, c ≠ '-')
    (hb : ∀ c ∈ b, c ≠ '-') :
    splitOnDash (a ++ '-' :: b) = [a, b] := by
  induction a with
  | nil => simp [splitOnDash, splitOnDash_no_dash hb]
  | cons c cs ih =>
    have hc : c ≠ '-' := ha c (List.mem_cons_self c cs)
    have hrest := ih fun x hx => ha x (List.mem_cons_of_mem c hx)
    simp [splitOnDash, hrest, hc]

/-! ## Ghost-order payload and the `txn_` codec

`encrypttxnOrder` / `decrypttxnOrder` in `payments.ts`.  The AES-256-CBC
cipher (node `crypto.createCipheriv` with key `sha256(JWT_SECRET)`) and the
JSON codec are library calls; they are abstracted as parameters, with their
inverse contracts taken as hypotheses where a theorem needs them. -/

/-- The `price` snapshot stored inside a ghost-order token. -/
structure PriceSnapshot where
  amount : Rat
  currency : String
  category : String
  productName : String
deriving DecidableEq, Repr

/-- The plaintext object passed to `encrypttxnOrder`. -/
structure TxnOrderData where
  txId : String
  downloadLink : String
  price : PriceSnapshot
deriving DecidableEq, Repr

/-- The AES-256-CBC cipher with the fixed derived key: `encaes iv plaintext`
is `createCipheriv('aes-256-cbc', ENCRYPTION_KEY, iv)` run to completion,
`decaes` the matching decipher. -/
structure AesCbcCipher where
  encaes : Bytes → Bytes → Bytes
  decaes : Bytes → Bytes → Bytes

/-- `encrypttxnOrder`: fresh IV (passed in, the route draws it with
`crypto.randomBytes(16)`), encrypt the JSON serialization, and return
`txn_` + hex(iv) + `-` + hex(ciphertext). -/
def encrypttxnOrder (C : AesCbcCipher) (stringify : TxnOrderData → Bytes)
    (iv : Bytes) (data : TxnOrderData) : String :=
  String.mk (('t' :: 'x' :: 'n' :: '_' :: hexEncodeBytes iv)
    ++ '-' :: hexEncodeBytes (C.encaes iv (stringify data)))

/-- `decrypttxnOrder`: require the `txn_` prefix, `substring(4)`,
`split('-')`, `shift()` the IV, re-`join('-')` the ciphertext, decrypt and
parse.  Any failure (`throw` in the source) is `none`. -/
def decrypttxnOrder (C : AesCbcCipher) (parse : Bytes → Option TxnOrderData)
    (text : String) : Option TxnOrderData :=
  let cs := text.toList
  if cs.take 4 = ['t', 'x', 'n', '_'] then
    match splitOnDash (cs.drop 4) with
    | [] => none
    | ivHex :: parts =>
      match hexDecodeChars ivHex, hexDecodeChars (joinDash parts) with
      | some iv, some ct => parse (C.decaes iv ct)
      | _, _ => none
  else none

/-- Core round-trip fact about the `txn_` codec, shared by several
theorems below. -/
theorem decrypt_encrypt_token (C : AesCbcCipher)
    (stringify : TxnOrderData → Bytes) (parse : Bytes → Option TxnOrderData)
    (iv : Bytes) (d : TxnOrderData)
    (hdec : C.decaes iv (C.encaes iv (stringify d)) = stringify d)
    (hparse : parse (stringify d) = some d) :
    decrypttxnOrder C parse (encrypttxnOrder C stringify iv d) = some d := by
  have htl : (encrypttxnOrder C stringify iv d).toList
      = 't' :: 'x' :: 'n' :: '_' ::
        (hexEncodeBytes iv ++ '-' :: hexEncodeBytes (C.encaes iv (stringify d))) := by
    simp [encrypttxnOrder, String.toList]
  rw [decrypttxnOrder, htl]
  simp only [List.take, List.drop, if_pos rfl]
  rw [splitOnDash_append (hexEncodeBytes_no_dash iv)
    (hexEncodeBytes_no_dash (C.encaes iv (stringify d)))]
  simp only [joinDash, hexDecodeChars_hexEncodeBytes, hdec, hparse]
  simp

/-- C5: decrypting an encrypted ghost-order token (AES-256-CBC over the
sha256-derived key, 16-byte IV, `txn_` + hex framing) recovers the original
transaction id, delivery link and price snapshot, whenever the cipher
inverts itself on this plaintext and the JSON codec round-trips. -/
theorem c5_ghost_token_roundtrip (C : AesCbcCipher)
    (stringify : TxnOrderData → Bytes) (parse : Bytes → Option TxnOrderData)
    (iv : Bytes) (d : TxnOrderData)
    (hiv : iv.length = 16)
    (hdec : C.decaes iv (C.encaes iv (stringify d)) = stringify d)
    (hparse : parse (stringify d) = some d) :
    decrypttxnOrder C parse (encrypttxnOrder C stringify iv d) = some d :=
  decrypt_encrypt_token C stringify parse iv d hdec hparse

/-- A trivial cipher usable to instantiate the abstract AES parameter. -/
def idCipher : AesCbcCipher := { encaes := fun _ p => p, decaes := fun _ p => p }

/-- Sample ghost-order payload. -/
def sampleTxnData : TxnOrderData :=
  { txId := "9c1a"
    downloadLink := "https://example.com/file"
    price := { amount := (199 : Rat) / 10, currency := "BRL",
               category := "standard", productName := "Pack" } }

/-- A trivial injective serialization for `sampleTxnData`, standing in for
`JSON.stringify` in witnesses. -/
def sampleStringify : TxnOrderData → Bytes := fun _ => [⟨42, by omega⟩]

/-- The matching stand-in for `JSON.parse`. -/
def sampleParse : Bytes → Option TxnOrderData := fun bs =>
  if bs = [⟨42, by omega⟩] then some sampleTxnData else none

/-- Sixteen zero bytes, standing in for a drawn IV. -/
def sampleIv : Bytes := List.replicate 16 ⟨0, by omega⟩

theorem c5_ghost_token_roundtrip_witness :
    sampleIv.length = 16
    ∧ idCipher.decaes sampleIv (idCipher.encaes sampleIv (sampleStringify sampleTxnData))
        = sampleStringify sampleTxnData
    ∧ sampleParse (sampleStringify sampleTxnData) = some sampleTxnData
    ∧ decrypttxnOrder idCipher sampleParse
        (encrypttxnOrder idCipher sampleStringify sampleIv sampleTxnData)
        = some sampleTxnData :=
  ⟨by decide, rfl, rfl,
    c5_ghost_token_roundtrip idCipher sampleStringify sampleParse sampleIv
      sampleTxnData (by decide) rfl rfl⟩

/-! ## Orders and the payments database

The Prisma rows that the payment routes read and write. -/

/-- `Order.status ∈ {PENDING, COMPLETED, FAILED}`. -/
inductive OrderStatus
  | PENDING
  | COMPLETED
  | FAILED
deriving DecidableEq, Repr

/-- `Order.gateway`. -/
inductive OrderGateway
  | PUSHINPAY
  | SYNCPAY
deriving DecidableEq, Repr

/-- A `Product` row as read through `price.product`. -/
structure Product where
  id : String
  name : String
  isActive : Bool
deriving DecidableEq, Repr

/-- A `Price` row with its included `product`. -/
structure Price where
  id : String
  amount : Rat
  currency : String
  category : String
  deliveryLink : String
  product : Product
deriving DecidableEq, Repr

/-- An `Order` row. -/
structure Order where
  id : String
  userId : String
  priceId : Option String
  status : OrderStatus
  gateway : OrderGateway
  pushinpayTxId : Option String := none
  syncpayTxId : Option String := none
  downloadLink : Option String := none
  createdAt : Nat := 0
deriving DecidableEq, Repr

/-- The relational store visible to the payment routes. -/
structure PaymentsDb where
  prices : List Price
  orders : List Order
deriving DecidableEq, Repr

/-- `prisma.price.findUnique({ where: { id } })`. -/
def findPrice : List Price → String → Option Price
  | [], _ => none
  | p :: rest, pid => if p.id = pid then some p else findPrice rest pid

/-- `prisma.order.findUnique({ where: { id } })`. -/
def findOrder : List Order → String → Option Order
  | [], _ => none
  | o :: rest, oid => if o.id = oid then some o else findOrder rest oid

/-- `prisma.order.update({ where: { id } })`: rewrite the unique row with the
given id (the first match, ids being primary keys). -/
def updateFirstOrder (orders : List Order) (orderId : String) (f : Order → Order) :
    List Order :=
  match orders with
  | [] => []
  | o :: rest => if o.id = orderId then f o :: rest else o :: updateFirstOrder rest orderId f

/-- The `data` of the webhook `update` call marking an order paid without an
associated price. -/
def setCompleted (o : Order) : Order := { o with status := OrderStatus.COMPLETED }

/-- The `data` of the webhook `update` call marking an order paid and
recording its delivery link. -/
def setCompletedWithLink (link : String) (o : Order) : Order :=
  { o with status := OrderStatus.COMPLETED, downloadLink := some link }

/-- The `data` of the `update` calls marking an order failed. -/
def setFailed (o : Order) : Order := { o with status := OrderStatus.FAILED }

/-! ## Webhook receivers -/

/-- The HTTP outcome of a webhook receiver, by source branch. -/
inductive WebhookResp
  | divertedAck
  | notFound
  | ignoredAlreadyProcessed
  | processed
  | parseError
deriving DecidableEq, Repr

/-- `POST /api/payments/webhook/:orderId` (PushinPay).  `status` is
`req.body.status`. -/
def webhookPushin (db : PaymentsDb) (orderId : String) (status : String) :
    PaymentsDb × WebhookResp :=
  if orderId = "diverted" then (db, .divertedAck)
  else
    match findOrder db.orders orderId with
    | none => (db, .notFound)
    | some order =>
      if order.status ≠ OrderStatus.PENDING then (db, .ignoredAlreadyProcessed)
      else if status = "paid" then
        match order.priceId.bind (findPrice db.prices) with
        | none =>
          ({ db with orders := updateFirstOrder db.orders order.id setCompleted }, .processed)
        | some price =>
          ({ db with orders := updateFirstOrder db.orders order.id (setCompletedWithLink price.deliveryLink) }, .processed)
      else if status = "expired" then
        ({ db with orders := updateFirstOrder db.orders order.id setFailed }, .processed)
      else (db, .processed)

/-- The result of `SyncPayService.parseWebhookPayload`; `none` models the
`throw` when `payload.data.id` is missing. -/
structure SyncWebhookData where
  id : String
  status : String
deriving DecidableEq, Repr

/-- `POST /api/payments/webhook-syncpay/:orderId`. -/
def webhookSyncpay (db : PaymentsDb) (orderId : String)
    (payload : Option SyncWebhookData) : PaymentsDb × WebhookResp :=
  match payload with
  | none => (db, .parseError)
  | some wd =>
    match findOrder db.orders orderId with
    | none => (db, .notFound)
    | some order =>
      if order.status ≠ OrderStatus.PENDING then (db, .ignoredAlreadyProcessed)
      else if wd.status = "PAID_OUT" then
        match order.priceId.bind (findPrice db.prices) with
        | none =>
          ({ db with orders := updateFirstOrder db.orders order.id setCompleted }, .processed)
        | some price =>
          ({ db with orders := updateFirstOrder db.orders order.id (setCompletedWithLink price.deliveryLink) }, .processed)
      else if wd.status = "FAILED" ∨ wd.status = "REFUNDED" then
        ({ db with orders := updateFirstOrder db.orders order.id setFailed }, .processed)
      else (db, .processed)

/-- The effect of the expiration sweep's `updateMany` on one row. -/
def expireMark (now : Nat) (o : Order) : Order :=
  if o.status = OrderStatus.PENDING ∧ o.createdAt < now - 30 * 60 * 1000
  then { o with status := OrderStatus.FAILED } else o

/-- `expirePendingOrders` (`orderExpiration.ts`): `updateMany` of all
`PENDING` orders created before `now - 30 * 60 * 1000` to `FAILED`;
returns the update count. -/
def expirePendingOrders (now : Nat) (db : PaymentsDb) : PaymentsDb × Nat :=
  ({ db with orders := db.orders.map (expireMark now) },
   db.orders.countP (fun o =>
      decide (o.status = OrderStatus.PENDING ∧ o.createdAt < now - 30 * 60 * 1000)))

/-! ### Lemmas on order lookup and update -/

theorem updateFirstOrder_eq_set {l : List Order} {oid : String} {ord : Order}
    (f : Order → Order) (h : findOrder l oid = some ord) :
    ∃ j, ∃ hj : j < l.length, l.get ⟨j, hj⟩ = ord
      ∧ updateFirstOrder l oid f = l.set j (f ord) := by
  induction l with
  | nil => simp [findOrder] at h
  | cons o rest ih =>
    by_cases ho : o.id = oid
    · rw [findOrder, if_pos ho] at h
      obtain rfl : o = ord := by injection h
      exact ⟨0, by simp, rfl, by rw [updateFirstOrder, if_pos ho]; rfl⟩
    · rw [findOrder, if_neg ho] at h
      obtain ⟨j, hj, hget, hupd⟩ := ih h
      refine ⟨j + 1, by simpa using Nat.succ_lt_succ hj, by simpa using hget, ?_⟩
      rw [updateFirstOrder, if_neg ho, hupd]
      rfl

theorem updateFirstOrder_length (l : List Order) (oid : String) (f : Order → Order) :
    (updateFirstOrder l oid f).length = l.length := by
  induction l with
  | nil => rfl
  | cons o rest ih =>
    by_cases ho : o.id = oid
    · simp [updateFirstOrder, if_pos ho]
    · simp [updateFirstOrder, if_neg ho, ih]

theorem findOrder_updateFirstOrder {l : List Order} {oid : String}
    (f : Order → Order) (hid : ∀ o, (f o).id = o.id) :
    findOrder (updateFirstOrder l oid f) oid = (findOrder l oid).map f := by
  induction l with
  | nil => rfl
  | cons o rest ih =>
    by_cases ho : o.id = oid
    · have : (f o).id = oid := by rw [hid]; exact ho
      simp [updateFirstOrder, findOrder, if_pos ho, this]
    · have : (f o).id = o.id := hid o
      simp [updateFirstOrder, findOrder, if_neg ho, ih]

theorem findOrder_some_id {l : List Order} {oid : String} {ord : Order}
    (h : findOrder l oid = some ord) : ord.id = oid := by
  induction l with
  | nil => simp [findOrder] at h
  | cons o rest ih =>
    by_cases ho : o.id = oid
    · rw [findOrder, if_pos ho] at h
      obtain rfl : o = ord := by injection h
      exact ho
    · rw [findOrder, if_neg ho] at h
      exact ih h

/-- Every run of the PushinPay webhook either leaves the database unchanged
or rewrites the single looked-up `PENDING` order to a settled status. -/
theorem webhookPushin_state (db : PaymentsDb) (oid s : String) :
    (webhookPushin db oid s).1 = db ∨
    (oid ≠ "diverted" ∧ ∃ ord f, findOrder db.orders oid = some ord ∧
      ord.status = OrderStatus.PENDING ∧ (∀ o, (f o).id = o.id) ∧
      ((f ord).status = OrderStatus.COMPLETED ∨ (f ord).status = OrderStatus.FAILED) ∧
      (webhookPushin db oid s).1
        = { db with orders := updateFirstOrder db.orders ord.id f }) := by
  by_cases hd : oid = "diverted"
  · left; simp [webhookPushin, hd]
  · cases hfind : findOrder db.orders oid with
    | none => left; simp [webhookPushin, hd, hfind]
    | some ord =>
      by_cases hp : ord.status = OrderStatus.PENDING
      · by_cases hs : s = "paid"
        · cases hlook : ord.priceId.bind (findPrice db.prices) with
          | none =>
            right
            exact ⟨hd, ord, setCompleted, rfl, hp, fun o => rfl, Or.inl rfl,
              by simp [webhookPushin, hd, hfind, hp, hs, hlook]⟩
          | some price =>
            right
            exact ⟨hd, ord, setCompletedWithLink price.deliveryLink, rfl, hp,
              fun o => rfl, Or.inl rfl,
              by simp [webhookPushin, hd, hfind, hp, hs, hlook]⟩
        · by_cases he : s = "expired"
          · right
            exact ⟨hd, ord, setFailed, rfl, hp, fun o => rfl, Or.inr rfl,
              by simp [webhookPushin, hd, hfind, hp, hs, he]⟩
          · left; simp [webhookPushin, hd, hfind, hp, hs, he]
      · left; simp [webhookPushin, hd, hfind, hp]

/-- Every run of the SyncPay webhook either leaves the database unchanged
or rewrites the single looked-up `PENDING` order to a settled status. -/
theorem webhookSyncpay_state (db : PaymentsDb) (oid : String)
    (payload : Option SyncWebhookData) :
    (webhookSyncpay db oid payload).1 = db ∨
    (∃ ord f, findOrder db.orders oid = some ord ∧
      ord.status = OrderStatus.PENDING ∧ (∀ o, (f o).id = o.id) ∧
      ((f ord).status = OrderStatus.COMPLETED ∨ (f ord).status = OrderStatus.FAILED) ∧
      (webhookSyncpay db oid payload).1
        = { db with orders := updateFirstOrder db.orders ord.id f }) := by
  cases payload with
  | none => left; rfl
  | some wd =>
    cases hfind : findOrder db.orders oid with
    | none => left; simp [webhookSyncpay, hfind]
    | some ord =>
      by_cases hp : ord.status = OrderStatus.PENDING
      · by_cases hs : wd.status = "PAID_OUT"
        · cases hlook : ord.priceId.bind (findPrice db.prices) with
          | none =>
            right
            exact ⟨ord, setCompleted, rfl, hp, fun o => rfl, Or.inl rfl,
              by simp [webhookSyncpay, hfind, hp, hs, hlook]⟩
          | some price =>
            right
            exact ⟨ord, setCompletedWithLink price.deliveryLink, rfl, hp,
              fun o => rfl, Or.inl rfl,
              by simp [webhookSyncpay, hfind, hp, hs, hlook]⟩
        · by_cases he : wd.status = "FAILED" ∨ wd.status = "REFUNDED"
          · right
            exact ⟨ord, setFailed, rfl, hp, fun o => rfl, Or.inr rfl,
              by simp [webhookSyncpay, hfind, hp, hs, he]⟩
          · left; simp [webhookSyncpay, hfind, hp, hs, he]
      · left; simp [webhookSyncpay, hfind, hp]

/-- C1: for every order and both webhook receivers, state is mutated only
when the looked-up order is still `PENDING`, and a webhook delivered twice
leaves the same final state as delivering it once. -/
theorem c1_webhook_idempotent (db : PaymentsDb) (orderId status : String)
    (payload : Option SyncWebhookData) :
    (∀ ord, findOrder db.orders orderId = some ord →
        ord.status ≠ OrderStatus.PENDING →
        (webhookPushin db orderId status).1 = db
        ∧ (webhookSyncpay db orderId payload).1 = db)
    ∧ (webhookPushin (webhookPushin db orderId status).1 orderId status).1
        = (webhookPushin db orderId status).1
    ∧ (webhookSyncpay (webhookSyncpay db orderId payload).1 orderId payload).1
        = (webhookSyncpay db orderId payload).1 := by
  refine ⟨?_, ?_, ?_⟩
  · intro ord hfind hne
    refine ⟨?_, ?_⟩
    · by_cases hd : orderId = "diverted"
      · simp [webhookPushin, hd]
      · simp [webhookPushin, hd, hfind, hne]
    · cases payload with
      | none => rfl
      | some wd => simp [webhookSyncpay, hfind, hne]
  · rcases webhookPushin_state db orderId status with h | ⟨hd, ord, f, hfind, hp, hfid, hfst, heq⟩
    · rw [h]; exact h
    · have hordid : ord.id = orderId := findOrder_some_id hfind
      have hfind2 : findOrder
          ({ db with orders := updateFirstOrder db.orders ord.id f } : PaymentsDb).orders
          orderId = some (f ord) := by
        show findOrder (updateFirstOrder db.orders ord.id f) orderId = _
        rw [hordid, findOrder_updateFirstOrder f hfid, hfind]
        rfl
      have hne2 : (f ord).status ≠ OrderStatus.PENDING := by
        rcases hfst with h | h <;> simp [h]
      rw [heq]
      simp [webhookPushin, hd, hfind2, hne2]
  · rcases webhookSyncpay_state db orderId payload with h | ⟨ord, f, hfind, hp, hfid, hfst, heq⟩
    · rw [h]; exact h
    · have hordid : ord.id = orderId := findOrder_some_id hfind
      have hfind2 : findOrder
          ({ db with orders := updateFirstOrder db.orders ord.id f } : PaymentsDb).orders
          orderId = some (f ord) := by
        show findOrder (updateFirstOrder db.orders ord.id f) orderId = _
        rw [hordid, findOrder_updateFirstOrder f hfid, hfind]
        rfl
      have hne2 : (f ord).status ≠ OrderStatus.PENDING := by
        rcases hfst with h | h <;> simp [h]
      cases payload with
      | none => rfl
      | some wd =>
        rw [heq]
        simp [webhookSyncpay, hfind2, hne2]

/-- A settled sample order for witnesses. -/
def sampleSettledOrder : Order :=
  { id := "o1", userId := "u1", priceId := some "p1",
    status := OrderStatus.COMPLETED, gateway := OrderGateway.PUSHINPAY }

/-- A one-order sample database for witnesses. -/
def sampleSettledDb : PaymentsDb := { prices := [], orders := [sampleSettledOrder] }

theorem c1_webhook_idempotent_witness :
    findOrder sampleSettledDb.orders "o1" = some sampleSettledOrder
    ∧ sampleSettledOrder.status ≠ OrderStatus.PENDING
    ∧ (webhookPushin sampleSettledDb "o1" "paid").1 = sampleSettledDb :=
  ⟨by decide, by decide,
    ((c1_webhook_idempotent sampleSettledDb "o1" "paid" none).1
      sampleSettledOrder (by decide) (by decide)).1⟩

/-! ## C2: the PENDING → COMPLETED | FAILED transition discipline -/

/-- An operation of the system that touches order statuses: the two webhook
receivers and the expiration sweep. -/
inductive PaymentOp
  | pushinWebhook (orderId : String) (status : String)
  | syncWebhook (orderId : String) (payload : Option SyncWebhookData)
  | expireSweep (now : Nat)

/-- The database after running one operation. -/
def applyPaymentOp : PaymentOp → PaymentsDb → PaymentsDb
  | .pushinWebhook oid s, db => (webhookPushin db oid s).1
  | .syncWebhook oid p, db => (webhookSyncpay db oid p).1
  | .expireSweep now, db => (expirePendingOrders now db).1

/-- Rewriting the first-matching `PENDING` order to a settled status leaves
every settled row untouched and only moves `PENDING` rows to
`COMPLETED`/`FAILED`. -/
theorem updateFirstOrder_settled {l : List Order} {oid : String} {ord : Order}
    {f : Order → Order}
    (hfind : findOrder l oid = some ord) (hp : ord.status = OrderStatus.PENDING)
    (hfst : (f ord).status = OrderStatus.COMPLETED ∨ (f ord).status = OrderStatus.FAILED)
    (i : Nat) (h : i < l.length) (h2 : i < (updateFirstOrder l oid f).length) :
    ((l.get ⟨i, h⟩).status ≠ OrderStatus.PENDING →
      (updateFirstOrder l oid f).get ⟨i, h2⟩ = l.get ⟨i, h⟩)
    ∧ (((updateFirstOrder l oid f).get ⟨i, h2⟩).status ≠ (l.get ⟨i, h⟩).status →
        (l.get ⟨i, h⟩).status = OrderStatus.PENDING
        ∧ (((updateFirstOrder l oid f).get ⟨i, h2⟩).status = OrderStatus.COMPLETED
           ∨ ((updateFirstOrder l oid f).get ⟨i, h2⟩).status = OrderStatus.FAILED)) := by
  obtain ⟨j, hj, hget, hupd⟩ := updateFirstOrder_eq_set f hfind
  by_cases hij : i = j
  · subst hij
    have hnew : (updateFirstOrder l oid f).get ⟨i, h2⟩ = f ord := by
      simp only [hupd, List.get_eq_getElem]
      rw [List.getElem_set_self]
    have hold : l.get ⟨i, h⟩ = ord := hget
    refine ⟨?_, ?_⟩
    · intro hne
      exact absurd (hold ▸ hp) hne
    · intro _
      rw [hnew, hold]
      exact ⟨hp, hfst⟩
  · have hnew : (updateFirstOrder l oid f).get ⟨i, h2⟩ = l.get ⟨i, h⟩ := by
      simp only [hupd, List.get_eq_getElem]
      rw [List.getElem_set_ne (fun hji => hij hji.symm)]
    refine ⟨fun _ => hnew, fun hne => absurd (hnew ▸ rfl) hne⟩

/-- C2: every status-updating operation only acts on orders that are still
`PENDING`: a settled (`COMPLETED`/`FAILED`) order row is never changed
again by any webhook or by the expiration sweep, and any status change is a
transition from `PENDING` to `COMPLETED` or `FAILED`. -/
theorem c2_pending_transitions_once (op : PaymentOp) (db : PaymentsDb) (i : Nat)
    (h : i < db.orders.length) (h2 : i < (applyPaymentOp op db).orders.length) :
    ((db.orders.get ⟨i, h⟩).status ≠ OrderStatus.PENDING →
      (applyPaymentOp op db).orders.get ⟨i, h2⟩ = db.orders.get ⟨i, h⟩)
    ∧ (((applyPaymentOp op db).orders.get ⟨i, h2⟩).status
          ≠ (db.orders.get ⟨i, h⟩).status →
        (db.orders.get ⟨i, h⟩).status = OrderStatus.PENDING
        ∧ (((applyPaymentOp op db).orders.get ⟨i, h2⟩).status = OrderStatus.COMPLETED
           ∨ ((applyPaymentOp op db).orders.get ⟨i, h2⟩).status = OrderStatus.FAILED)) := by
  cases op with
  | pushinWebhook oid s =>
    rcases webhookPushin_state db oid s with heq | ⟨_, ord, f, hfind, hp, _, hfst, heq⟩
    · revert h2
      rw [show applyPaymentOp (PaymentOp.pushinWebhook oid s) db
            = (webhookPushin db oid s).1 from rfl, heq]
      intro h2
      exact ⟨fun _ => rfl, fun hne => absurd rfl hne⟩
    · rw [findOrder_some_id hfind] at heq
      revert h2
      rw [show applyPaymentOp (PaymentOp.pushinWebhook oid s) db
            = (webhookPushin db oid s).1 from rfl, heq]
      intro h2
      exact updateFirstOrder_settled hfind hp hfst i h h2
  | syncWebhook oid p =>
    rcases webhookSyncpay_state db oid p with heq | ⟨ord, f, hfind, hp, _, hfst, heq⟩
    · revert h2
      rw [show applyPaymentOp (PaymentOp.syncWebhook oid p) db
            = (webhookSyncpay db oid p).1 from rfl, heq]
      intro h2
      exact ⟨fun _ => rfl, fun hne => absurd rfl hne⟩
    · rw [findOrder_some_id hfind] at heq
      revert h2
      rw [show applyPaymentOp (PaymentOp.syncWebhook oid p) db
            = (webhookSyncpay db oid p).1 from rfl, heq]
      intro h2
      exact updateFirstOrder_settled hfind hp hfst i h h2
  | expireSweep now =>
    have hget2 : (applyPaymentOp (PaymentOp.expireSweep now) db).orders.get ⟨i, h2⟩
        = if (db.orders.get ⟨i, h⟩).status = OrderStatus.PENDING
             ∧ (db.orders.get ⟨i, h⟩).createdAt < now - 30 * 60 * 1000
          then { db.orders.get ⟨i, h⟩ with status := OrderStatus.FAILED }
          else db.orders.get ⟨i, h⟩ := by
      have hmap : (applyPaymentOp (PaymentOp.expireSweep now) db).orders
          = db.orders.map (expireMark now) := rfl
      revert h2
      rw [hmap]
      intro h2
      simp [List.get_eq_getElem, List.getElem_map, expireMark]
    rw [hget2]
    by_cases hc : (db.orders.get ⟨i, h⟩).status = OrderStatus.PENDING
        ∧ (db.orders.get ⟨i, h⟩).createdAt < now - 30 * 60 * 1000
    · rw [if_pos hc]
      exact ⟨fun hne => absurd hc.1 hne, fun _ => ⟨hc.1, Or.inr rfl⟩⟩
    · rw [if_neg hc]
      exact ⟨fun _ => rfl, fun hne => absurd rfl hne⟩

theorem c2_pending_transitions_once_witness :
    0 < sampleSettledDb.orders.length
    ∧ 0 < (applyPaymentOp (PaymentOp.pushinWebhook "o1" "paid") sampleSettledDb).orders.length
    ∧ (sampleSettledDb.orders.get ⟨0, by decide⟩).status ≠ OrderStatus.PENDING
    ∧ (applyPaymentOp (PaymentOp.pushinWebhook "o1" "paid") sampleSettledDb).orders.get
        ⟨0, by decide⟩ = sampleSettledDb.orders.get ⟨0, by decide⟩ :=
  ⟨by decide, by decide, by decide,
    (c2_pending_transitions_once (PaymentOp.pushinWebhook "o1" "paid") sampleSettledDb
      0 (by decide) (by decide)).1 (by decide)⟩

/-! ## Payment initiation (`POST /api/payments/initiate-payment`) -/

/-- The gateway chosen by the caller (already validated against
`['pushinpay', 'syncpay']`). -/
inductive GatewayChoice
  | pushinpay
  | syncpay
deriving DecidableEq, Repr

/-- The request body of `initiate-payment`. -/
structure InitiateRequest where
  priceId : Option String
  gateway : GatewayChoice := .pushinpay
  clientName : Option String := none
  clientCpf : Option String := none
  clientEmail : Option String := none
  clientPhone : Option String := none
deriving Repr

/-- The route's environment: the authenticated user, the
`Math.floor(Math.random() * 30)` draw, the three gateway clients'
`createPixPayment` outcomes (transaction id, or the thrown error), the id
Prisma assigns to a created order, the drawn IV, and the creation
timestamp. -/
structure InitiateEnv where
  userId : Option String
  divertRoll : Nat
  publicPixResult : Except String String
  pushinPixResult : Except String String
  syncPixResult : Except String String
  freshOrderId : String
  iv : Bytes
  now : Nat

/-- The HTTP outcome of `initiate-payment`, by source branch. -/
inductive InitiateResp
  | missingPriceId
  | unauthorized
  | missingClientInfo
  | priceNotFound
  | productUnavailable
  | serverError
  | ok (orderId : String) (gateway : GatewayChoice) (transactionId : String)
deriving DecidableEq, Repr

/-- The ghost-order payload built in the diverted branch. -/
def ghostPayload (price : Price) (txId : String) : TxnOrderData :=
  { txId := txId, downloadLink := price.deliveryLink,
    price := { amount := price.amount, currency := price.currency,
               category := price.category, productName := price.product.name } }

/-- The `data` of the `update` storing the PushinPay transaction id. -/
def setPushinTx (txId : String) (o : Order) : Order := { o with pushinpayTxId := some txId }

/-- The `data` of the `update` storing the SyncPay transaction id. -/
def setSyncTx (txId : String) (o : Order) : Order := { o with syncpayTxId := some txId }

/-- The order row created by `prisma.order.create` in the non-diverted
branches: `PENDING`, no transaction id, no download link. -/
def mkPendingOrder (oid u priceId : String) (gw : OrderGateway) (now : Nat) : Order :=
  { id := oid, userId := u, priceId := some priceId, status := OrderStatus.PENDING,
    gateway := gw, createdAt := now }

/-- `POST /api/payments/initiate-payment`. -/
def initiatePayment (C : AesCbcCipher) (stringify : TxnOrderData → Bytes)
    (env : InitiateEnv) (db : PaymentsDb) (req : InitiateRequest) :
    PaymentsDb × InitiateResp :=
  match req.priceId with
  | none => (db, .missingPriceId)
  | some priceId =>
    match env.userId with
    | none => (db, .unauthorized)
    | some userId =>
      if req.gateway = GatewayChoice.syncpay ∧ (req.clientName = none
          ∨ req.clientCpf = none ∨ req.clientEmail = none ∨ req.clientPhone = none) then
        (db, .missingClientInfo)
      else
        match findPrice db.prices priceId with
        | none => (db, .priceNotFound)
        | some price =>
          if price.product.isActive = false then (db, .productUnavailable)
          else if env.divertRoll = 0 then
            match env.publicPixResult with
            | .error _ => (db, .serverError)
            | .ok txId =>
              (db, .ok (encrypttxnOrder C stringify env.iv (ghostPayload price txId))
                GatewayChoice.pushinpay txId)
          else if req.gateway = GatewayChoice.pushinpay then
            let order : Order :=
              mkPendingOrder env.freshOrderId userId priceId OrderGateway.PUSHINPAY env.now
            let db1 : PaymentsDb := { db with orders := db.orders ++ [order] }
            match env.pushinPixResult with
            | .error _ => (db1, .serverError)
            | .ok txId =>
              ({ db1 with orders := updateFirstOrder db1.orders env.freshOrderId (setPushinTx txId) },
                .ok env.freshOrderId GatewayChoice.pushinpay txId)
          else
            let order : Order :=
              mkPendingOrder env.freshOrderId userId priceId OrderGateway.SYNCPAY env.now
            let db1 : PaymentsDb := { db with orders := db.orders ++ [order] }
            match env.syncPixResult with
            | .error _ => (db1, .serverError)
            | .ok txId =>
              ({ db1 with orders := updateFirstOrder db1.orders env.freshOrderId (setSyncTx txId) },
                .ok env.freshOrderId GatewayChoice.syncpay txId)

/-! ## The order-status route (`GET /api/payments/order/:orderId`) -/

/-- What `getTransactionStatus` reported for a ghost order's transaction. -/
structure TransactionStatusInfo where
  status : String
  created_at : String
deriving DecidableEq, Repr

/-- The `fakeOrder` object the route builds for a ghost order. -/
structure GhostOrderView where
  id : String
  status : OrderStatus
  userId : String
  priceId : String
  downloadLink : Option String
  createdAt : String
  amount : Rat
  currency : String
  category : String
  productName : String
deriving DecidableEq, Repr

/-- The HTTP outcome of `GET /order/:orderId`, by source branch. -/
inductive OrderRouteOut
  | ghost (view : GhostOrderView)
  | ghostInvalid
  | found (order : Order)
  | notFound
  | forbidden
deriving DecidableEq, Repr

/-- `GET /api/payments/order/:orderId`: a `txn_` token is decrypted and
served from the gateway's transaction status without touching the
database; otherwise the order row is looked up and access-checked. -/
def getOrderRoute (C : AesCbcCipher) (parse : Bytes → Option TxnOrderData)
    (txInfo : TransactionStatusInfo) (db : PaymentsDb) (userId : String)
    (isAdmin : Bool) (orderId : String) : OrderRouteOut :=
  if orderId.toList.take 4 = ['t', 'x', 'n', '_'] then
    match decrypttxnOrder C parse orderId with
    | none => .ghostInvalid
    | some txnData =>
      .ghost
        { id := orderId
          status := if txInfo.status = "paid" then OrderStatus.COMPLETED
                    else OrderStatus.PENDING
          userId := "txn_USER"
          priceId := "txn_PRICE"
          downloadLink := if txInfo.status = "paid" then some txnData.downloadLink
                          else none
          createdAt := txInfo.created_at
          amount := txnData.price.amount
          currency := txnData.price.currency
          category := txnData.price.category
          productName := txnData.price.productName }
  else
    match findOrder db.orders orderId with
    | none => .notFound
    | some order =>
      if order.userId ≠ userId ∧ isAdmin = false then .forbidden
      else .found order

/-! ### Lemmas for appended fresh orders -/

theorem findOrder_append {l : List Order} {oid : String}
    (h : findOrder l oid = none) (o : Order) :
    findOrder (l ++ [o]) oid = if o.id = oid then some o else none := by
  induction l with
  | nil => simp [findOrder]
  | cons a rest ih =>
    rw [findOrder] at h
    by_cases ha : a.id = oid
    · rw [if_pos ha] at h
      exact absurd h (by simp)
    · rw [if_neg ha] at h
      simp [findOrder, ha, ih h]

theorem updateFirstOrder_append_fresh {l : List Order} {oid : String}
    (h : findOrder l oid = none) (o : Order) (ho : o.id = oid) (f : Order → Order) :
    updateFirstOrder (l ++ [o]) oid f = l ++ [f o] := by
  induction l with
  | nil => simp [updateFirstOrder, ho]
  | cons a rest ih =>
    rw [findOrder] at h
    by_cases ha : a.id = oid
    · rw [if_pos ha] at h
      exact absurd h (by simp)
    · rw [if_neg ha] at h
      simp [updateFirstOrder, ha, ih h]

theorem findOrder_map_id_preserving (g : Order → Order) (hg : ∀ o, (g o).id = o.id)
    (l : List Order) (oid : String) :
    findOrder (l.map g) oid = (findOrder l oid).map g := by
  induction l with
  | nil => rfl
  | cons a rest ih =>
    by_cases ha : a.id = oid
    · have hga : (g a).id = oid := by rw [hg]; exact ha
      simp [findOrder, hga, ha]
    · have hga : ¬(g a).id = oid := by rw [hg]; exact ha
      simp [findOrder, hga, ha, ih]

theorem expireMark_id (now : Nat) (o : Order) : (expireMark now o).id = o.id := by
  unfold expireMark
  split <;> rfl

/-- C3: when the 1-in-30 draw fires on a valid initiation, no order row is
persisted, the public PushinPay service's transaction is used regardless of
the requested gateway, and the returned `orderId` is an encrypted opaque
token that decrypts — with no database lookup — to the transaction id, the
price's delivery link and the price snapshot. -/
theorem c3_diverted_initiation (C : AesCbcCipher)
    (stringify : TxnOrderData → Bytes) (parse : Bytes → Option TxnOrderData)
    (env : InitiateEnv) (db : PaymentsDb) (req : InitiateRequest)
    (priceId : String) (price : Price) (txId : String)
    (hpid : req.priceId = some priceId)
    (hu : env.userId.isSome = true)
    (hclient : ¬(req.gateway = GatewayChoice.syncpay ∧ (req.clientName = none
        ∨ req.clientCpf = none ∨ req.clientEmail = none ∨ req.clientPhone = none)))
    (hprice : findPrice db.prices priceId = some price)
    (hactive : price.product.isActive = true)
    (hroll : env.divertRoll = 0)
    (hpub : env.publicPixResult = Except.ok txId)
    (hdec : C.decaes env.iv (C.encaes env.iv (stringify (ghostPayload price txId)))
        = stringify (ghostPayload price txId))
    (hparse : parse (stringify (ghostPayload price txId))
        = some (ghostPayload price txId)) :
    (initiatePayment C stringify env db req).1 = db
    ∧ (initiatePayment C stringify env db req).2
        = InitiateResp.ok (encrypttxnOrder C stringify env.iv (ghostPayload price txId))
            GatewayChoice.pushinpay txId
    ∧ decrypttxnOrder C parse
        (encrypttxnOrder C stringify env.iv (ghostPayload price txId))
        = some (ghostPayload price txId) := by
  obtain ⟨u, hu⟩ := Option.isSome_iff_exists.mp hu
  have hrun : initiatePayment C stringify env db req
      = (db, InitiateResp.ok
          (encrypttxnOrder C stringify env.iv (ghostPayload price txId))
          GatewayChoice.pushinpay txId) := by
    simp [initiatePayment, hpid, hu, hclient, hprice, hactive, hroll, hpub]
  exact ⟨by rw [hrun], by rw [hrun],
    decrypt_encrypt_token C stringify parse env.iv (ghostPayload price txId) hdec hparse⟩

/-- Sample active product for witnesses. -/
def sampleProduct : Product := { id := "prod1", name := "Pack", isActive := true }

/-- Sample price row for witnesses. -/
def samplePrice : Price :=
  { id := "price1", amount := (199 : Rat) / 10, currency := "BRL",
    category := "standard", deliveryLink := "https://example.com/file",
    product := sampleProduct }

theorem c3_diverted_initiation_witness :
    (initiatePayment idCipher sampleStringify
        { userId := some "u1", divertRoll := 0, publicPixResult := Except.ok "tx-pub",
          pushinPixResult := Except.ok "tx-pp", syncPixResult := Except.ok "tx-sp",
          freshOrderId := "order-1", iv := sampleIv, now := 1000 }
        { prices := [samplePrice], orders := [] }
        { priceId := some "price1" }).1
      = { prices := [samplePrice], orders := [] } :=
  (c3_diverted_initiation idCipher sampleStringify
    (fun bs => if bs = sampleStringify (ghostPayload samplePrice "tx-pub")
               then some (ghostPayload samplePrice "tx-pub") else none)
    { userId := some "u1", divertRoll := 0, publicPixResult := Except.ok "tx-pub",
      pushinPixResult := Except.ok "tx-pp", syncPixResult := Except.ok "tx-sp",
      freshOrderId := "order-1", iv := sampleIv, now := 1000 }
    { prices := [samplePrice], orders := [] }
    { priceId := some "price1" }
    "price1" samplePrice "tx-pub"
    rfl rfl (by simp) rfl rfl rfl rfl rfl rfl).1

/-- C6: when the draw does not fire on a valid initiation, an order row is
persisted with status `PENDING` and the caller's gateway, the chosen
gateway's PIX charge is created, and the provider's transaction id is
stored on that row (`pushinpayTxId` or `syncpayTxId`). -/
theorem c6_regular_initiation_persists_order (C : AesCbcCipher)
    (stringify : TxnOrderData → Bytes)
    (env : InitiateEnv) (db : PaymentsDb) (req : InitiateRequest)
    (priceId : String) (price : Price) (u txId : String)
    (hpid : req.priceId = some priceId)
    (hu : env.userId = some u)
    (hclient : ¬(req.gateway = GatewayChoice.syncpay ∧ (req.clientName = none
        ∨ req.clientCpf = none ∨ req.clientEmail = none ∨ req.clientPhone = none)))
    (hprice : findPrice db.prices priceId = some price)
    (hactive : price.product.isActive = true)
    (hroll : env.divertRoll ≠ 0)
    (hfresh : findOrder db.orders env.freshOrderId = none) :
    (req.gateway = GatewayChoice.pushinpay → env.pushinPixResult = Except.ok txId →
      (initiatePayment C stringify env db req).1.orders
        = db.orders ++ [setPushinTx txId
            (mkPendingOrder env.freshOrderId u priceId OrderGateway.PUSHINPAY env.now)]
      ∧ (setPushinTx txId
            (mkPendingOrder env.freshOrderId u priceId OrderGateway.PUSHINPAY env.now)).status
          = OrderStatus.PENDING
      ∧ (setPushinTx txId
            (mkPendingOrder env.freshOrderId u priceId OrderGateway.PUSHINPAY env.now)).pushinpayTxId
          = some txId
      ∧ (initiatePayment C stringify env db req).2
          = InitiateResp.ok env.freshOrderId GatewayChoice.pushinpay txId)
    ∧ (req.gateway = GatewayChoice.syncpay → env.syncPixResult = Except.ok txId →
      (initiatePayment C stringify env db req).1.orders
        = db.orders ++ [setSyncTx txId
            (mkPendingOrder env.freshOrderId u priceId OrderGateway.SYNCPAY env.now)]
      ∧ (setSyncTx txId
            (mkPendingOrder env.freshOrderId u priceId OrderGateway.SYNCPAY env.now)).status
          = OrderStatus.PENDING
      ∧ (setSyncTx txId
            (mkPendingOrder env.freshOrderId u priceId OrderGateway.SYNCPAY env.now)).syncpayTxId
          = some txId
      ∧ (initiatePayment C stringify env db req).2
          = InitiateResp.ok env.freshOrderId GatewayChoice.syncpay txId) := by
  constructor
  · intro hgw htx
    have hupd := updateFirstOrder_append_fresh hfresh
      (mkPendingOrder env.freshOrderId u priceId OrderGateway.PUSHINPAY env.now)
      rfl (setPushinTx txId)
    refine ⟨?_, rfl, rfl, ?_⟩
    · show (initiatePayment C stringify env db req).1.orders = _
      simp only [initiatePayment, hpid, hu, hprice]
      rw [if_neg hclient, if_neg (by simp [hactive]), if_neg (by simp [hroll]),
        if_pos hgw, htx]
      simpa using hupd
    · simp only [initiatePayment, hpid, hu, hprice]
      rw [if_neg hclient, if_neg (by simp [hactive]), if_neg (by simp [hroll]),
        if_pos hgw, htx]
  · intro hgw htx
    have hgwne : ¬req.gateway = GatewayChoice.pushinpay := by
      rw [hgw]; intro hcon; cases hcon
    have hupd := updateFirstOrder_append_fresh hfresh
      (mkPendingOrder env.freshOrderId u priceId OrderGateway.SYNCPAY env.now)
      rfl (setSyncTx txId)
    refine ⟨?_, rfl, rfl, ?_⟩
    · show (initiatePayment C stringify env db req).1.orders = _
      simp only [initiatePayment, hpid, hu, hprice]
      rw [if_neg hclient, if_neg (by simp [hactive]), if_neg (by simp [hroll]),
        if_neg hgwne, htx]
      simpa using hupd
    · simp only [initiatePayment, hpid, hu, hprice]
      rw [if_neg hclient, if_neg (by simp [hactive]), if_neg (by simp [hroll]),
        if_neg hgwne, htx]

theorem c6_regular_initiation_persists_order_witness :
    (initiatePayment idCipher sampleStringify
        { userId := some "u1", divertRoll := 7, publicPixResult := Except.ok "tx-pub",
          pushinPixResult := Except.ok "tx-pp", syncPixResult := Except.ok "tx-sp",
          freshOrderId := "order-1", iv := sampleIv, now := 1000 }
        { prices := [samplePrice], orders := [] }
        { priceId := some "price1" }).1.orders
      = [] ++ [setPushinTx "tx-pp"
          (mkPendingOrder "order-1" "u1" "price1" OrderGateway.PUSHINPAY 1000)] :=
  ((c6_regular_initiation_persists_order idCipher sampleStringify
    { userId := some "u1", divertRoll := 7, publicPixResult := Except.ok "tx-pub",
      pushinPixResult := Except.ok "tx-pp", syncPixResult := Except.ok "tx-sp",
      freshOrderId := "order-1", iv := sampleIv, now := 1000 }
    { prices := [samplePrice], orders := [] }
    { priceId := some "price1" }
    "price1" samplePrice "u1" "tx-pp"
    rfl rfl (by simp) rfl rfl (by decide) rfl).1 rfl rfl).1

/-- C10: payment initiation is not atomic against gateway failure: the
`PENDING` order row is created before the gateway call, so when the call
throws the route answers 500 while the row persists with no provider
transaction id; the expiration sweep later marks it — like every `PENDING`
order older than 30 minutes — as `FAILED`. -/
theorem c10_initiation_not_atomic (C : AesCbcCipher)
    (stringify : TxnOrderData → Bytes)
    (env : InitiateEnv) (db : PaymentsDb) (req : InitiateRequest)
    (priceId : String) (price : Price) (u e : String)
    (hpid : req.priceId = some priceId)
    (hu : env.userId = some u)
    (hclient : ¬(req.gateway = GatewayChoice.syncpay ∧ (req.clientName = none
        ∨ req.clientCpf = none ∨ req.clientEmail = none ∨ req.clientPhone = none)))
    (hprice : findPrice db.prices priceId = some price)
    (hactive : price.product.isActive = true)
    (hroll : env.divertRoll ≠ 0)
    (hfresh : findOrder db.orders env.freshOrderId = none)
    (hgw : req.gateway = GatewayChoice.pushinpay)
    (hfail : env.pushinPixResult = Except.error e) :
    (initiatePayment C stringify env db req).1.orders
      = db.orders
          ++ [mkPendingOrder env.freshOrderId u priceId OrderGateway.PUSHINPAY env.now]
    ∧ (mkPendingOrder env.freshOrderId u priceId OrderGateway.PUSHINPAY env.now).status
        = OrderStatus.PENDING
    ∧ (mkPendingOrder env.freshOrderId u priceId OrderGateway.PUSHINPAY env.now).pushinpayTxId
        = none
    ∧ (mkPendingOrder env.freshOrderId u priceId OrderGateway.PUSHINPAY env.now).syncpayTxId
        = none
    ∧ (initiatePayment C stringify env db req).2 = InitiateResp.serverError
    ∧ (∀ now2 : Nat, env.now < now2 - 30 * 60 * 1000 →
        findOrder (expirePendingOrders now2 (initiatePayment C stringify env db req).1).1.orders
          env.freshOrderId
          = some (setFailed
              (mkPendingOrder env.freshOrderId u priceId OrderGateway.PUSHINPAY env.now)))
    ∧ (∀ (db2 : PaymentsDb) (now2 : Nat) (o : Order), o ∈ db2.orders →
        o.status = OrderStatus.PENDING → o.createdAt < now2 - 30 * 60 * 1000 →
        { o with status := OrderStatus.FAILED } ∈ (expirePendingOrders now2 db2).1.orders) := by
  have horders : (initiatePayment C stringify env db req).1.orders
      = db.orders
          ++ [mkPendingOrder env.freshOrderId u priceId OrderGateway.PUSHINPAY env.now] := by
    show (initiatePayment C stringify env db req).1.orders = _
    simp only [initiatePayment, hpid, hu, hprice]
    rw [if_neg hclient, if_neg (by simp [hactive]), if_neg (by simp [hroll]),
      if_pos hgw, hfail]
  have hresp : (initiatePayment C stringify env db req).2 = InitiateResp.serverError := by
    simp only [initiatePayment, hpid, hu, hprice]
    rw [if_neg hclient, if_neg (by simp [hactive]), if_neg (by simp [hroll]),
      if_pos hgw, hfail]
  refine ⟨horders, rfl, rfl, rfl, hresp, ?_, ?_⟩
  · intro now2 hn2
    have hexp : (expirePendingOrders now2 (initiatePayment C stringify env db req).1).1.orders
        = (initiatePayment C stringify env db req).1.orders.map (expireMark now2) := rfl
    rw [hexp, horders, findOrder_map_id_preserving (expireMark now2) (expireMark_id now2)]
    rw [findOrder_append hfresh]
    have hid : (mkPendingOrder env.freshOrderId u priceId OrderGateway.PUSHINPAY env.now).id
        = env.freshOrderId := rfl
    rw [if_pos hid]
    show some (expireMark now2
      (mkPendingOrder env.freshOrderId u priceId OrderGateway.PUSHINPAY env.now)) = _
    have hcond : (mkPendingOrder env.freshOrderId u priceId
          OrderGateway.PUSHINPAY env.now).status = OrderStatus.PENDING
        ∧ (mkPendingOrder env.freshOrderId u priceId
            OrderGateway.PUSHINPAY env.now).createdAt < now2 - 30 * 60 * 1000 :=
      ⟨rfl, hn2⟩
    simp only [expireMark]
    rw [if_pos hcond]
    rfl
  · intro db2 now2 o hmem hst hold
    have hmark : expireMark now2 o = { o with status := OrderStatus.FAILED } := by
      rw [expireMark, if_pos ⟨hst, hold⟩]
    have : expireMark now2 o ∈ db2.orders.map (expireMark now2) :=
      List.mem_map_of_mem (expireMark now2) hmem
    rw [hmark] at this
    exact this

theorem c10_initiation_not_atomic_witness :
    (initiatePayment idCipher sampleStringify
        { userId := some "u1", divertRoll := 7, publicPixResult := Except.ok "tx-pub",
          pushinPixResult := Except.error "gateway down", syncPixResult := Except.ok "tx-sp",
          freshOrderId := "order-1", iv := sampleIv, now := 1000 }
        { prices := [samplePrice], orders := [] }
        { priceId := some "price1" }).2
      = InitiateResp.serverError :=
  (c10_initiation_not_atomic idCipher sampleStringify
    { userId := some "u1", divertRoll := 7, publicPixResult := Except.ok "tx-pub",
      pushinPixResult := Except.error "gateway down", syncPixResult := Except.ok "tx-sp",
      freshOrderId := "order-1", iv := sampleIv, now := 1000 }
    { prices := [samplePrice], orders := [] }
    { priceId := some "price1" }
    "price1" samplePrice "u1" "gateway down"
    rfl rfl (by simp) rfl rfl (by decide) rfl rfl rfl).2.2.2.2.1

/-! ## C4: what actually happens to webhooks for diverted orders -/

/-- A still-pending order, present while a diverted webhook arrives. -/
def c4PendingOrder : Order :=
  { id := "o9", userId := "u9", priceId := some "p9",
    status := OrderStatus.PENDING, gateway := OrderGateway.PUSHINPAY }

/-- A database holding a pending payment, for the C4 counterexample. -/
def c4Db : PaymentsDb := { prices := [], orders := [c4PendingOrder] }

/-- C4 counterexample: a webhook delivered for a diverted order (the
route's `orderId` is the fixed marker `diverted`) performs no decryption
and no mutation even while a payment is still pending — the handler
acknowledges immediately and the state is bit-for-bit unchanged, refuting
the claim that the receiver decrypts the opaque token and mutates pending
payment state. -/
theorem c4_diverted_webhook_counterexample :
    c4PendingOrder.status = OrderStatus.PENDING
    ∧ webhookPushin c4Db "diverted" "paid" = (c4Db, WebhookResp.divertedAck)
    ∧ (webhookPushin c4Db "diverted" "paid").1.orders = [c4PendingOrder] := by
  exact ⟨rfl, rfl, rfl⟩

/-- C4 (amended): a webhook for a diverted order carries the fixed marker
`diverted` instead of a token; the receiver acknowledges it without any
lookup, decryption or state change.  The opaque token is instead decrypted
by the order-status route, which reads the payment state from the
gateway's transaction status — `COMPLETED` with the stored delivery link
exactly when the gateway reports `paid` — with no database access. -/
theorem c4_diverted_webhook_amended (db : PaymentsDb) (status : String)
    (C : AesCbcCipher) (stringify : TxnOrderData → Bytes)
    (parse : Bytes → Option TxnOrderData) (iv : Bytes) (d : TxnOrderData)
    (txInfo : TransactionStatusInfo) (userId : String) (isAdmin : Bool)
    (hdec : C.decaes iv (C.encaes iv (stringify d)) = stringify d)
    (hparse : parse (stringify d) = some d) :
    webhookPushin db "diverted" status = (db, WebhookResp.divertedAck)
    ∧ getOrderRoute C parse txInfo db userId isAdmin (encrypttxnOrder C stringify iv d)
        = OrderRouteOut.ghost
          { id := encrypttxnOrder C stringify iv d
            status := if txInfo.status = "paid" then OrderStatus.COMPLETED
                      else OrderStatus.PENDING
            userId := "txn_USER"
            priceId := "txn_PRICE"
            downloadLink := if txInfo.status = "paid" then some d.downloadLink
                            else none
            createdAt := txInfo.created_at
            amount := d.price.amount
            currency := d.price.currency
            category := d.price.category
            productName := d.price.productName } := by
  constructor
  · rfl
  · have hstart : List.take 4 (encrypttxnOrder C stringify iv d).data
        = ['t', 'x', 'n', '_'] := by
      simp [encrypttxnOrder]
    have hdecr : decrypttxnOrder C parse (encrypttxnOrder C stringify iv d) = some d :=
      decrypt_encrypt_token C stringify parse iv d hdec hparse
    simp [getOrderRoute, hstart, hdecr]

theorem c4_diverted_webhook_amended_witness :
    webhookPushin c4Db "diverted" "paid" = (c4Db, WebhookResp.divertedAck)
    ∧ getOrderRoute idCipher sampleParse { status := "paid", created_at := "t0" }
        c4Db "u9" false (encrypttxnOrder idCipher sampleStringify sampleIv sampleTxnData)
        = OrderRouteOut.ghost
          { id := encrypttxnOrder idCipher sampleStringify sampleIv sampleTxnData
            status := OrderStatus.COMPLETED
            userId := "txn_USER"
            priceId := "txn_PRICE"
            downloadLink := some sampleTxnData.downloadLink
            createdAt := "t0"
            amount := sampleTxnData.price.amount
            currency := sampleTxnData.price.currency
            category := sampleTxnData.price.category
            productName := sampleTxnData.price.productName } :=
  c4_diverted_webhook_amended c4Db "paid" idCipher sampleStringify sampleParse
    sampleIv sampleTxnData { status := "paid", created_at := "t0" } "u9" false
    rfl rfl

/-! ## Product catalog routes (`GET /api/products`, `GET /api/products/:id`) -/

/-- A `ProductRegion` row (only its country code matters to the routes). -/
structure ProductRegion where
  countryCode : String
deriving DecidableEq, Repr

/-- A `Price` row with its included `orders`, as fetched by the listing. -/
structure CatalogPrice where
  id : String
  amount : Rat
  currency : String
  category : String
  deliveryLink : String
  orders : List Order
deriving DecidableEq, Repr

/-- A `Product` row with its included `prices` and `regions`. -/
structure CatalogProduct where
  id : String
  name : String
  description : String
  imageUrl : String
  isActive : Bool
  telegramLink : String
  prices : List CatalogPrice
  regions : List ProductRegion
deriving DecidableEq, Repr

/-- The region callback of the listing's `product.regions.some(...)`:
`NON_BR` matches everybody but Brazil, anything else matches exactly. -/
def regionMatchesListing (userCountryCode : String) (region : ProductRegion) : Bool :=
  if region.countryCode = "NON_BR" then decide (userCountryCode ≠ "BR")
  else decide (region.countryCode = userCountryCode)

/-- The region callback of the single-product route's `regions.some(...)`. -/
def regionMatchesSingle (userCountryCode : String) (region : ProductRegion) : Bool :=
  if region.countryCode = "NON_BR" then decide (userCountryCode ≠ "BR")
  else decide (region.countryCode = userCountryCode)

/-- The listing query's `orders: { where: { status: 'COMPLETED' } }`. -/
def keepCompletedOrders (pr : CatalogPrice) : CatalogPrice :=
  { pr with orders := pr.orders.filter (fun o => decide (o.status = OrderStatus.COMPLETED)) }

/-- The listing's `findMany({ where: { isActive: true }, include: ... })`. -/
def fetchCatalog (products : List CatalogProduct) : List CatalogProduct :=
  (products.filter (fun p => p.isActive)).map
    (fun p => { p with prices := p.prices.map keepCompletedOrders })

/-- The listing's filter callback: a product is kept only when it has at
least one region, the viewer's country is known, and some region matches. -/
def visibleInListing (userCountryCode : Option String) (p : CatalogProduct) : Bool :=
  if p.regions.length = 0 then false
  else
    match userCountryCode with
    | none => false
    | some c => p.regions.any (regionMatchesListing c)

/-- A price as returned to the client, with the order list stripped. -/
structure ListedPrice where
  id : String
  amount : Rat
  currency : String
  category : String
  deliveryLink : String
deriving DecidableEq, Repr

/-- A product as returned by the listing. -/
structure ListedProduct where
  id : String
  name : String
  description : String
  imageUrl : String
  isActive : Bool
  telegramLink : String
  prices : List ListedPrice
  availableInRegion : Bool
  salesCount : Nat
deriving DecidableEq, Repr

/-- Drop the `orders` of a fetched price (`{ orders, ...price }`). -/
def stripPrice (pr : CatalogPrice) : ListedPrice :=
  { id := pr.id, amount := pr.amount, currency := pr.currency,
    category := pr.category, deliveryLink := pr.deliveryLink }

/-- The listing's per-product mapping: strip regions and order lists, tag
`availableInRegion: true`, and total the fetched orders as `salesCount`. -/
def toListed (p : CatalogProduct) : ListedProduct :=
  { id := p.id, name := p.name, description := p.description, imageUrl := p.imageUrl,
    isActive := p.isActive, telegramLink := p.telegramLink,
    prices := p.prices.map stripPrice,
    availableInRegion := true,
    salesCount := p.prices.foldl (fun total pr => total + pr.orders.length) 0 }

/-- One insertion step of `sort((a, b) => b.salesCount - a.salesCount)`. -/
def insertBySales (p : ListedProduct) : List ListedProduct → List ListedProduct
  | [] => [p]
  | q :: rest =>
    if q.salesCount < p.salesCount then p :: q :: rest
    else q :: insertBySales p rest

/-- `sort((a, b) => b.salesCount - a.salesCount)`: best sellers first. -/
def sortBySales : List ListedProduct → List ListedProduct
  | [] => []
  | p :: rest => insertBySales p (sortBySales rest)

/-- `GET /api/products`: fetch, region-filter, map, sort. -/
def listProducts (products : List CatalogProduct) (userCountryCode : Option String) :
    List ListedProduct :=
  sortBySales (((fetchCatalog products).filter (visibleInListing userCountryCode)).map toListed)

/-- `prisma.product.findUnique({ where: { id } })` for the single route. -/
def findCatalogProduct : List CatalogProduct → String → Option CatalogProduct
  | [], _ => none
  | p :: rest, pid => if p.id = pid then some p else findCatalogProduct rest pid

/-- The HTTP outcome of `GET /api/products/:id`, by source branch. -/
inductive SingleProductResp
  | notFound
  | notAvailable
  | forbiddenNoRegions
  | forbiddenNoLocation
  | forbiddenRegion
  | ok (product : CatalogProduct)
deriving DecidableEq, Repr

/-- `GET /api/products/:id` with its strict region checks. -/
def getProductById (products : List CatalogProduct) (pid : String)
    (userCountryCode : Option String) : SingleProductResp :=
  match findCatalogProduct products pid with
  | none => .notFound
  | some product =>
    if product.isActive = false then .notAvailable
    else if product.regions.length = 0 then .forbiddenNoRegions
    else
      match userCountryCode with
      | none => .forbiddenNoLocation
      | some c =>
        if product.regions.any (regionMatchesSingle c) then .ok product
        else .forbiddenRegion

/-! ### Catalog lemmas -/

theorem mem_fetchCatalog {q : CatalogProduct} {products : List CatalogProduct}
    (h : q ∈ fetchCatalog products) :
    ∃ p, p ∈ products ∧ p.isActive = true
      ∧ q = { p with prices := p.prices.map keepCompletedOrders } := by
  unfold fetchCatalog at h
  rcases List.mem_map.mp h with ⟨p, hp, rfl⟩
  rcases List.mem_filter.mp hp with ⟨hpm, hact⟩
  exact ⟨p, hpm, hact, rfl⟩

theorem visibleInListing_true {country : Option String} {p : CatalogProduct}
    (h : visibleInListing country p = true) :
    p.regions ≠ [] ∧ ∃ c, country = some c
      ∧ p.regions.any (regionMatchesListing c) = true := by
  unfold visibleInListing at h
  by_cases hz : p.regions.length = 0
  · rw [if_pos hz] at h
    exact absurd h (by simp)
  · rw [if_neg hz] at h
    refine ⟨fun hnil => hz (by simp [hnil]), ?_⟩
    cases country with
    | none => exact absurd h (by simp)
    | some c => exact ⟨c, rfl, h⟩

theorem insertBySales_perm (p : ListedProduct) (l : List ListedProduct) :
    List.Perm (insertBySales p l) (p :: l) := by
  induction l with
  | nil => exact List.Perm.refl _
  | cons a rest ih =>
    by_cases hc : a.salesCount < p.salesCount
    · simp only [insertBySales, if_pos hc]
      exact List.Perm.refl _
    · simp only [insertBySales, if_neg hc]
      exact List.Perm.trans (List.Perm.cons a ih) (List.Perm.swap p a rest)

theorem sortBySales_perm (l : List ListedProduct) :
    List.Perm (sortBySales l) l := by
  induction l with
  | nil => exact List.Perm.refl _
  | cons a rest ih =>
    exact List.Perm.trans (insertBySales_perm a (sortBySales rest)) (List.Perm.cons a ih)

theorem insertBySales_sorted {p : ListedProduct} {l : List ListedProduct}
    (h : List.Pairwise (fun a b => b.salesCount ≤ a.salesCount) l) :
    List.Pairwise (fun a b => b.salesCount ≤ a.salesCount) (insertBySales p l) := by
  induction l with
  | nil => simp [insertBySales]
  | cons a rest ih =>
    rcases List.pairwise_cons.mp h with ⟨ha, hrest⟩
    by_cases hc : a.salesCount < p.salesCount
    · simp only [insertBySales, if_pos hc]
      refine List.pairwise_cons.mpr ⟨?_, h⟩
      intro x hx
      rcases List.mem_cons.mp hx with rfl | hx2
      · omega
      · have := ha x hx2
        omega
    · simp only [insertBySales, if_neg hc]
      refine List.pairwise_cons.mpr ⟨?_, ih hrest⟩
      intro x hx
      rcases List.mem_cons.mp ((insertBySales_perm p rest).mem_iff.mp hx) with rfl | hx2
      · omega
      · exact ha x hx2

theorem sortBySales_sorted (l : List ListedProduct) :
    List.Pairwise (fun a b => b.salesCount ≤ a.salesCount) (sortBySales l) := by
  induction l with
  | nil => simp [sortBySales]
  | cons a rest ih => exact insertBySales_sorted ih

theorem foldl_add_orders_length (l : List CatalogPrice) (n : Nat) :
    l.foldl (fun total pr => total + pr.orders.length) n
      = n + (l.map (fun pr => pr.orders.length)).sum := by
  induction l generalizing n with
  | nil => simp
  | cons a rest ih =>
    simp only [List.foldl, List.map, List.sum_cons, ih]
    omega

theorem map_stripPrice_keepCompleted (l : List CatalogPrice) :
    (l.map keepCompletedOrders).map stripPrice = l.map stripPrice := by
  induction l with
  | nil => rfl
  | cons a rest ih =>
    simp only [List.map, ih]
    rfl

theorem map_length_keepCompleted (l : List CatalogPrice) :
    (l.map keepCompletedOrders).map (fun pr => pr.orders.length)
      = l.map (fun pr =>
          (pr.orders.filter (fun o => decide (o.status = OrderStatus.COMPLETED))).length) := by
  induction l with
  | nil => rfl
  | cons a rest ih =>
    simp only [List.map, ih]
    rfl

/-- The number of COMPLETED orders of a product, summed over its prices. -/
def completedSales (p : CatalogProduct) : Nat :=
  (p.prices.map (fun pr =>
    (pr.orders.filter (fun o => decide (o.status = OrderStatus.COMPLETED))).length)).sum

/-- C7: a product with zero regions is never returned by the listing (for
any viewer country, including an undetected location), the single-product
route rejects such a product with 403, and in general a listed product is
active, has at least one region, and matches the viewer's resolved
country. -/
theorem c7_zero_region_products_hidden (products : List CatalogProduct)
    (country : Option String) :
    (∀ lp, lp ∈ listProducts products country →
      ∃ p, p ∈ products ∧ lp.id = p.id ∧ p.isActive = true ∧ p.regions ≠ []
        ∧ ∃ c, country = some c ∧ p.regions.any (regionMatchesListing c) = true)
    ∧ (∀ pid p, findCatalogProduct products pid = some p → p.isActive = true →
        p.regions = [] →
        getProductById products pid country = SingleProductResp.forbiddenNoRegions)
    ∧ (∀ pid p, getProductById products pid country = SingleProductResp.ok p →
        p.isActive = true ∧ p.regions ≠ []
        ∧ ∃ c, country = some c ∧ p.regions.any (regionMatchesSingle c) = true) := by
  refine ⟨?_, ?_, ?_⟩
  · intro lp hmem
    have hmem2 : lp ∈ ((fetchCatalog products).filter
        (visibleInListing country)).map toListed :=
      (sortBySales_perm _).mem_iff.mp hmem
    rcases List.mem_map.mp hmem2 with ⟨q, hq, rfl⟩
    rcases List.mem_filter.mp hq with ⟨hqm, hvis⟩
    rcases mem_fetchCatalog hqm with ⟨p, hpm, hact, rfl⟩
    rcases visibleInListing_true hvis with ⟨hreg, c, hc, hany⟩
    exact ⟨p, hpm, rfl, hact, hreg, c, hc, hany⟩
  · intro pid p hfind hact hreg
    simp only [getProductById, hfind]
    rw [if_neg (by simp [hact]), if_pos (by simp [hreg])]
  · intro pid p hok
    unfold getProductById at hok
    cases hfind : findCatalogProduct products pid with
    | none =>
      rw [hfind] at hok
      exact SingleProductResp.noConfusion hok
    | some prod =>
      rw [hfind] at hok
      simp only [] at hok
      by_cases hact : prod.isActive = false
      · rw [if_pos hact] at hok
        exact SingleProductResp.noConfusion hok
      · rw [if_neg hact] at hok
        by_cases hlen : prod.regions.length = 0
        · rw [if_pos hlen] at hok
          exact SingleProductResp.noConfusion hok
        · rw [if_neg hlen] at hok
          cases country with
          | none => exact SingleProductResp.noConfusion hok
          | some c =>
            dsimp only at hok
            by_cases hany : prod.regions.any (regionMatchesSingle c) = true
            · rw [if_pos hany] at hok
              obtain rfl : prod = p := by injection hok
              refine ⟨?_, fun hnil => hlen (by simp [hnil]), c, rfl, hany⟩
              cases hb : prod.isActive with
              | false => exact absurd hb hact
              | true => rfl
            · rw [if_neg hany] at hok
              exact SingleProductResp.noConfusion hok

/-- A sample product with no regions, for the C7 witness. -/
def c7NoRegionProduct : CatalogProduct :=
  { id := "prod2", name := "Hidden", description := "d", imageUrl := "i",
    isActive := true, telegramLink := "t", prices := [], regions := [] }

theorem c7_zero_region_products_hidden_witness :
    findCatalogProduct [c7NoRegionProduct] "prod2" = some c7NoRegionProduct
    ∧ c7NoRegionProduct.isActive = true
    ∧ c7NoRegionProduct.regions = []
    ∧ getProductById [c7NoRegionProduct] "prod2" (some "US")
        = SingleProductResp.forbiddenNoRegions :=
  ⟨rfl, rfl, rfl,
    (c7_zero_region_products_hidden [c7NoRegionProduct] (some "US")).2.1
      "prod2" c7NoRegionProduct rfl rfl rfl⟩

/-- C8: in both the listing and the single-product route, a `NON_BR`
region matches a viewer country exactly when it is not `BR`, and any other
region code matches exactly itself. -/
theorem c8_nonbr_region_semantics (c r : String) :
    (regionMatchesListing c ⟨"NON_BR"⟩ = true ↔ c ≠ "BR")
    ∧ (r ≠ "NON_BR" → (regionMatchesListing c ⟨r⟩ = true ↔ r = c))
    ∧ (regionMatchesSingle c ⟨"NON_BR"⟩ = true ↔ c ≠ "BR")
    ∧ (r ≠ "NON_BR" → (regionMatchesSingle c ⟨r⟩ = true ↔ r = c)) := by
  refine ⟨?_, ?_, ?_, ?_⟩
  · simp [regionMatchesListing]
  · intro hr
    simp [regionMatchesListing, hr]
  · simp [regionMatchesSingle]
  · intro hr
    simp [regionMatchesSingle, hr]

theorem c8_nonbr_region_semantics_witness :
    ("DE" : String) ≠ "NON_BR"
    ∧ (regionMatchesListing "US" ⟨"DE"⟩ = true ↔ ("DE" : String) = "US")
    ∧ (regionMatchesSingle "FR" ⟨"NON_BR"⟩ = true ↔ ("FR" : String) ≠ "BR") :=
  ⟨by decide, (c8_nonbr_region_semantics "US" "DE").2.1 (by decide),
    (c8_nonbr_region_semantics "FR" "DE").2.2.1⟩

/-- C9: the listing returns the visible products sorted by descending
sales count — the number of COMPLETED orders summed over each product's
prices — as a permutation of the filtered mapped rows, with per-price
order lists stripped and `availableInRegion = true` on every element. -/
theorem c9_listing_sorted_by_sales (products : List CatalogProduct)
    (country : Option String) :
    List.Pairwise (fun a b => b.salesCount ≤ a.salesCount)
      (listProducts products country)
    ∧ List.Perm (listProducts products country)
        (((fetchCatalog products).filter (visibleInListing country)).map toListed)
    ∧ (∀ lp, lp ∈ listProducts products country →
        lp.availableInRegion = true
        ∧ ∃ p, p ∈ products ∧ p.isActive = true ∧ lp.salesCount = completedSales p
          ∧ lp.prices = p.prices.map stripPrice) := by
  refine ⟨sortBySales_sorted _, sortBySales_perm _, ?_⟩
  intro lp hmem
  have hmem2 : lp ∈ ((fetchCatalog products).filter
      (visibleInListing country)).map toListed :=
    (sortBySales_perm _).mem_iff.mp hmem
  rcases List.mem_map.mp hmem2 with ⟨q, hq, rfl⟩
  rcases List.mem_filter.mp hq with ⟨hqm, _⟩
  rcases mem_fetchCatalog hqm with ⟨p, hpm, hact, rfl⟩
  refine ⟨rfl, p, hpm, hact, ?_, ?_⟩
  · show (p.prices.map keepCompletedOrders).foldl
        (fun total pr => total + pr.orders.length) 0 = completedSales p
    rw [foldl_add_orders_length, map_length_keepCompleted]
    simp [completedSales]
  · show (p.prices.map keepCompletedOrders).map stripPrice = p.prices.map stripPrice
    exact map_stripPrice_keepCompleted p.prices

/-- A completed and a pending order row, for the C9 witness. -/
def c9CompletedOrder : Order :=
  { id := "oc", userId := "u", priceId := some "price9",
    status := OrderStatus.COMPLETED, gateway := OrderGateway.PUSHINPAY }

/-- A pending order that must not count as a sale. -/
def c9PendingOrder : Order :=
  { id := "op", userId := "u", priceId := some "price9",
    status := OrderStatus.PENDING, gateway := OrderGateway.PUSHINPAY }

/-- A catalog price row with one completed and one pending order. -/
def c9PriceRow : CatalogPrice :=
  { id := "price9", amount := 5, currency := "BRL", category := "std",
    deliveryLink := "link", orders := [c9CompletedOrder, c9PendingOrder] }

/-- A visible sample product for the C9 witness. -/
def c9Product : CatalogProduct :=
  { id := "prod9", name := "Pack", description := "d", imageUrl := "i",
    isActive := true, telegramLink := "t", prices := [c9PriceRow],
    regions := [⟨"US"⟩] }

theorem c9_listing_sorted_by_sales_witness :
    toListed { c9Product with prices := c9Product.prices.map keepCompletedOrders }
        ∈ listProducts [c9Product] (some "US")
    ∧ (toListed { c9Product with
          prices := c9Product.prices.map keepCompletedOrders }).availableInRegion
        = true := by
  have hcalc : listProducts [c9Product] (some "US")
      = [toListed { c9Product with
          prices := c9Product.prices.map keepCompletedOrders }] := rfl
  have hmem : toListed { c9Product with
      prices := c9Product.prices.map keepCompletedOrders }
      ∈ listProducts [c9Product] (some "US") := by
    rw [hcalc]
    exact List.mem_singleton_self _
  exact ⟨hmem,
    ((c9_listing_sorted_by_sales [c9Product] (some "US")).2.2 _ hmem).1⟩

end Vipacess
